import Mathlib

/-!
Shallow embedding of the Intelligent Excel Parser core
(`app/value_parser.py`, `app/llm_agent.py`, `app/parser.py`,
`app/registries.py`) and proofs about it.

Modelling conventions:
* Raw spreadsheet cells are `CellValue` (null / native number / native
  boolean / string); Python machine floats are modelled as exact rationals
  (`ℚ`).  The float-literal corner cases `inf`/`nan` and underscore
  separators accepted by Python's `float()` are outside the model.
* Python strings are Lean `String`s, but every operation (`lower`,
  `upper`, `strip`, `startswith`, `in`, `replace(x, "")`) is defined here
  over the underlying character list so that terms evaluate inside the
  kernel.
* Python truthiness of an optional parameter name (`param_name and ...`)
  is modelled by using `String` with `""` for `None`.
-/

/-- Does `needle` occur as a contiguous substring of `hay`?  Model of
Python's `needle in hay` for strings (the empty needle matches). -/
def containsSub (hay needle : List Char) : Bool :=
  match hay with
  | [] => needle.isEmpty
  | _ :: t => needle.isPrefixOf hay || containsSub t needle

/-- Python `needle in hay` on strings. -/
def strContains (hay needle : String) : Bool :=
  containsSub hay.data needle.data

/-- Python `str.lower()` (ASCII, which covers every header and alias in
the registries). -/
def pyLower (s : String) : String :=
  String.mk (s.data.map Char.toLower)

/-- Python `str.upper()` (ASCII). -/
def pyUpper (s : String) : String :=
  String.mk (s.data.map Char.toUpper)

/-- Strip leading and trailing whitespace from a character list. -/
def stripChars (l : List Char) : List Char :=
  ((l.dropWhile Char.isWhitespace).reverse.dropWhile Char.isWhitespace).reverse

/-- Python `str.strip()`. -/
def pyStrip (s : String) : String :=
  String.mk (stripChars s.data)

/-- Python `str.startswith(pre)`. -/
def pyStartsWith (s pre : String) : Bool :=
  pre.data.isPrefixOf s.data

/-- Python `str.replace(c, "")` for a one-character pattern `c`: removes
every occurrence of the character. -/
def removeAll (s : String) (c : Char) : String :=
  String.mk (s.data.filter (fun x => x ≠ c))

/-- Python `len(s)` for a string: number of characters. -/
def strLen (s : String) : ℕ := s.data.length

/-- Python rendering of a float inside an f-string: integral values print
with a trailing `.0`.  (Non-integral values print their decimal expansion
in Python; here they render as `num/den`, a presentation detail no claim
depends on.) -/
def pyFloatStr (v : ℚ) : String :=
  if v.den = 1 then toString v.num ++ ".0" else toString v

/-- Python rendering of a bool inside an f-string. -/
def pyBool (b : Bool) : String :=
  if b then "True" else "False"

/-- One raw spreadsheet cell as handed to the parser: `null` (Python
`None`), a native number (`int`/`float`), a native `bool` (which in
Python is also an `int`!), or a string. -/
inductive CellValue where
  | null
  | num (q : ℚ)
  | bool (b : Bool)
  | str (s : String)
deriving Repr, DecidableEq

/-- Python truthiness of a cell value (`bool(cell)`). -/
def truthy : CellValue → Bool
  | .null => false
  | .num q => q ≠ 0
  | .bool b => b
  | .str s => s ≠ ""

/-- Exponent suffix of a Python float literal: either nothing, or
`e`/`E`, an optional sign and at least one digit, consuming the whole
rest of the input. -/
def parseExp (m : ℚ) : List Char → Option ℚ
  | [] => some m
  | c :: rest =>
    if c = 'e' ∨ c = 'E' then
      let (esign, rest1) :=
        match rest with
        | '+' :: r => ((1 : ℤ), r)
        | '-' :: r => ((-1 : ℤ), r)
        | r => ((1 : ℤ), r)
      let ds := rest1.takeWhile Char.isDigit
      let tail := rest1.dropWhile Char.isDigit
      if ds.isEmpty ∨ ¬ tail.isEmpty then none
      else some (m * (10 : ℚ) ^ (esign * (ds.foldl (fun a d => 10 * a + (d.toNat - 48)) 0 : ℕ)))
    else none

/-- Digit list to natural number. -/
def digitsToNat (ds : List Char) : ℕ :=
  ds.foldl (fun a d => 10 * a + (d.toNat - 48)) 0

/-- Model of Python `float(s)`: optional surrounding whitespace, optional
sign, decimal digits with an optional point (`"12"`, `"12."`, `".5"`)
and an optional exponent; `none` models the `ValueError` raised on any
other input.  (`inf`/`nan` literals and `_` separators are outside the
model.) -/
def pyFloat (s : String) : Option ℚ :=
  let cs := stripChars s.data
  let (neg, cs1) :=
    match cs with
    | '+' :: rest => (false, rest)
    | '-' :: rest => (true, rest)
    | rest => (false, rest)
  let app : ℚ → ℚ := fun q => if neg then -q else q
  let intPart := cs1.takeWhile Char.isDigit
  let rest1 := cs1.dropWhile Char.isDigit
  match rest1 with
  | '.' :: rest2 =>
    let fracPart := rest2.takeWhile Char.isDigit
    let rest3 := rest2.dropWhile Char.isDigit
    if intPart.isEmpty ∧ fracPart.isEmpty then none
    else
      parseExp (app ((digitsToNat intPart : ℚ) +
        (digitsToNat fracPart : ℚ) / (10 : ℚ) ^ fracPart.length)) rest3
  | _ =>
    if intPart.isEmpty then none
    else parseExp (app (digitsToNat intPart : ℚ)) rest1

/-- Greedy match of `\d*\.?\d+` at the head of the input (the numeric
body of the extraction regex in `parse_value`), returning the matched
characters. -/
def numAt (cs : List Char) : Option (List Char) :=
  let ds := cs.takeWhile Char.isDigit
  let rest := cs.dropWhile Char.isDigit
  match rest with
  | '.' :: r =>
    let fs := r.takeWhile Char.isDigit
    if fs.isEmpty then (if ds.isEmpty then none else some ds)
    else some (ds ++ '.' :: fs)
  | _ => if ds.isEmpty then none else some ds

/-- Match of the full regex `[-+]?\d*\.?\d+` at the head of the input. -/
def matchAt (cs : List Char) : Option (List Char) :=
  match cs with
  | [] => none
  | c :: rest =>
    if c = '-' ∨ c = '+' then
      match numAt rest with
      | some m => some (c :: m)
      | none => none
    else numAt cs

/-- Leftmost match of `[-+]?\d*\.?\d+` in the input: Python
`re.search(r'[-+]?\d*\.?\d+', value_str)`. -/
def extractFirst : List Char → Option (List Char)
  | [] => none
  | c :: cs =>
    match matchAt (c :: cs) with
    | some m => some m
    | none => extractFirst cs

/-- `NUMERIC_PARAMS` from `value_parser.py`: parameters that must be
numeric; booleans are not accepted for these. -/
def NUMERIC_PARAMS : List String :=
  ["coal_consumption", "steam_generation", "power_generation", "efficiency"]

/-- Python `param_name and needle in param_name.lower()` with `""`
standing for an absent (`None`) parameter name. -/
def paramHas (param needle : String) : Bool :=
  param ≠ "" && strContains (pyLower param) needle

/-- Python `param_name and any(p in param_name.lower() for p in
NUMERIC_PARAMS)`. -/
def paramIsNumericOnly (param : String) : Bool :=
  param ≠ "" && NUMERIC_PARAMS.any (fun p => strContains (pyLower param) p)

/-- The shared efficiency-percentage inference of `parse_value`: a value
in `(1, 100]` for an `efficiency`-like parameter is divided by 100 and
tagged `infTag`; otherwise the value is returned as-is under `dirTag`. -/
def inferEfficiency (value : ℚ) (param : String) (infTag dirTag : String) :
    Option ℚ × String :=
  if paramHas param "efficiency" ∧ 1 < value ∧ value ≤ 100 then
    (some (value / 100), infTag)
  else (some value, dirTag)

/-- Steps 7-8 of `parse_value`: extract the first number sequence via the
regex, else `unparseable`. -/
def extractStep (value_str : String) : Option ℚ × String :=
  match extractFirst value_str.data with
  | some m =>
    match pyFloat (String.mk m) with
    | some v => (some v, "extracted_number")
    | none => (none, "unparseable")
  | none => (none, "unparseable")

/-- Step 6 of `parse_value`: direct float conversion with the efficiency
inference. -/
def directStep (value_str param : String) : Option ℚ × String :=
  match pyFloat value_str with
  | some v =>
    inferEfficiency v param "numeric_string_inferred_percentage" "numeric_direct_string"
  | none => extractStep value_str

/-- Step 5 of `parse_value`: strip commas and parse. -/
def commaStep (value_str param : String) : Option ℚ × String :=
  if strContains value_str "," then
    match pyFloat (pyStrip (removeAll value_str ',')) with
    | some v => (some v, "numeric_with_commas")
    | none => directStep value_str param
  else directStep value_str param

/-- Step 4 of `parse_value`: strip the percent sign, parse, divide by
100. -/
def percentStep (value_str param : String) : Option ℚ × String :=
  if strContains value_str "%" then
    match pyFloat (pyStrip (removeAll value_str '%')) with
    | some v => (some (v / 100), "percentage")
    | none => commaStep value_str param
  else commaStep value_str param

/-- `parse_value` from `value_parser.py`: parse a raw cell value to
numeric format, returning `(parsed_value, confidence_note)`.  A native
Python `bool` passes the `isinstance(raw_value, (int, float))` test
(Python's `bool` is a subclass of `int`), so it is handled by the native
number branch with value 1 or 0. -/
def parse_value : CellValue → String → Option ℚ × String
  | .null, _ => (none, "null_value")
  | .num q, param =>
    inferEfficiency q param "numeric_direct_inferred_percentage" "numeric_direct"
  | .bool b, param =>
    inferEfficiency (if b then 1 else 0) param
      "numeric_direct_inferred_percentage" "numeric_direct"
  | .str s, param =>
    if s = "" ∨ s = "N/A" ∨ s = "NA" then (none, "null_value")
    else
      let value_str := pyUpper (pyStrip s)
      if value_str ∈ ["YES", "TRUE", "Y", "1"] then
        if paramIsNumericOnly param then (none, "unexpected_boolean")
        else (some 1, "boolean_true")
      else if value_str ∈ ["NO", "FALSE", "N", "0"] then
        if paramIsNumericOnly param then (none, "unexpected_boolean")
        else (some 0, "boolean_false")
      else percentStep value_str param

/-- Message `f"Efficiency value {parsed_value} exceeds 100%"`. -/
def effExceedMsg (v : ℚ) : String :=
  "Efficiency value " ++ pyFloatStr v ++ " exceeds 100%"

/-- Message `f"Efficiency {parsed_value} - verify if this is decimal or percentage"`. -/
def effVerifyMsg (v : ℚ) : String :=
  "Efficiency " ++ pyFloatStr v ++ " - verify if this is decimal or percentage"

/-- Message `f"Coal consumption cannot be negative: {parsed_value}"`. -/
def coalMsg (v : ℚ) : String :=
  "Coal consumption cannot be negative: " ++ pyFloatStr v

/-- Message `f"Power generation cannot be negative: {parsed_value}"`. -/
def powerMsg (v : ℚ) : String :=
  "Power generation cannot be negative: " ++ pyFloatStr v

/-- Message `f"Operating hours {parsed_value} outside expected range (0-24)"`. -/
def hourMsg (v : ℚ) : String :=
  "Operating hours " ++ pyFloatStr v ++ " outside expected range (0-24)"

/-- `validate_value` from `value_parser.py`: validate a parsed value for
the given parameter, returning `(is_valid, warning_message)`.  Each
Python `if` block `return`s only when its range check fires, so the
blocks chain as `else if`s here. -/
def validate_value : Option ℚ → String → Bool × Option String
  | none, _ => (true, none)
  | some v, param =>
    if paramHas param "efficiency" ∧ (v < 0 ∨ v > 1) then
      if v > 100 then (false, some (effExceedMsg v))
      else (true, some (effVerifyMsg v))
    else if paramHas param "coal" ∧ v < 0 then (false, some (coalMsg v))
    else if paramHas param "power" ∧ v < 0 then (false, some (powerMsg v))
    else if paramHas param "hour" ∧ (v < 0 ∨ v > 24) then (false, some (hourMsg v))
    else (true, none)


/-- Reconciliation of a cell's final confidence from its column's mapping
confidence, parse method, parsed value and validation outcome
(`parser.py`, lines 112-120). -/
def finalConfidence (mc : String) (pv : Option ℚ) (method : String) (ok : Bool) : String :=
  let c1 := if method = "extracted_number" ∧ mc = "high" then "medium" else mc
  let c2 := if method = "unexpected_boolean" then "low" else c1
  let c3 := if pv = none ∧ (method = "null_value" ∨ method = "unparseable") then "medium" else c2
  if ok then c3 else "low"

/-- The three-level confidence scale of the spec, `low < medium < high`,
as a rank (any other string ranks like `low`; the code only ever
produces the three levels). -/
def confRank (c : String) : ℕ :=
  if c = "low" then 0 else if c = "medium" then 1 else if c = "high" then 2 else 0

/-- `MappingResult` from `models.py`. -/
structure MappingResult where
  header : String
  param_name : Option String
  asset_name : Option String
  confidence : String
  reason : String
deriving Repr, DecidableEq

/-- `ParsedCell` from `models.py`. -/
structure ParsedCell where
  row : ℕ
  col : ℕ
  param_name : String
  asset_name : Option String
  raw_value : CellValue
  parsed_value : Option ℚ
  confidence : String
  notes : String
deriving Repr, DecidableEq

/-- One entry of `PARAMETER_REGISTRY` (`registries.py`); the Python key
`section` is spelled `section_name` here. -/
structure Parameter where
  name : String
  display_name : String
  unit : String
  category : String
  section_name : String
  aliases : List String
  applicable_assets : List String
deriving Repr, DecidableEq

/-- One entry of `ASSET_REGISTRY` (`registries.py`); the Python key
`type` is spelled `asset_type` here. -/
structure Asset where
  name : String
  display_name : String
  asset_type : String
  aliases : List String
deriving Repr, DecidableEq

/-- `PARAMETER_REGISTRY` from `registries.py`, transcribed in full. -/
def PARAMETER_REGISTRY : List Parameter := [
  { name := "coal_consumption", display_name := "Coal Consumption", unit := "MT",
    category := "input", section_name := "COGEN BOILER",
    aliases := ["Coal Consumption", "Coal Used", "Coal (MT)", "Daily Coal", "Coal Used (MT)", "COAL CONSMPTN"],
    applicable_assets := ["AFBC-1", "AFBC-2"] },
  { name := "coal_gcv", display_name := "Coal GCV", unit := "kcal/kg",
    category := "input", section_name := "COGEN BOILER",
    aliases := ["Coal GCV", "Coal Gross Calorific Value", "GCV", "COALCV"],
    applicable_assets := ["AFBC-1", "AFBC-2"] },
  { name := "steam_generation", display_name := "Steam Generation", unit := "T/hr",
    category := "output", section_name := "COGEN BOILER",
    aliases := ["Steam", "Steam Generated", "Steam Generation", "Steam (Boiler)", "Steam Output", "STEAM GEN"],
    applicable_assets := ["AFBC-1", "AFBC-2"] },
  { name := "steam_consumption", display_name := "Steam Consumption", unit := "T/hr",
    category := "input", section_name := "COGEN BOILER",
    aliases := ["Steam Consumption", "Steam Used", "Steam Input"],
    applicable_assets := ["AFBC-1", "AFBC-2"] },
  { name := "power_generation", display_name := "Power Generation", unit := "MWh",
    category := "output", section_name := "POWER PLANT",
    aliases := ["Power", "Power Generated", "Power Output", "Power (MW)", "Power Generation", "Power TG", "POWER GEN"],
    applicable_assets := ["TG-1", "TG-2"] },
  { name := "power_consumption", display_name := "Power Consumption", unit := "MWh",
    category := "input", section_name := "POWER PLANT",
    aliases := ["Power Consumption", "Power Used", "Auxiliary Power Load"],
    applicable_assets := ["TG-1", "TG-2"] },
  { name := "power_export", display_name := "Power Export", unit := "MWh",
    category := "output", section_name := "POWER PLANT",
    aliases := ["Power Export", "Power Exported", "Grid Export"],
    applicable_assets := ["TG-1", "TG-2"] },
  { name := "water_consumption", display_name := "Water Consumption", unit := "KL",
    category := "input", section_name := "UTILITIES",
    aliases := ["Water", "Water Consumption", "Water Used", "Water (KL)"],
    applicable_assets := ["AFBC-1", "AFBC-2", "TG-1", "TG-2"] },
  { name := "co2_emissions", display_name := "CO₂ Emissions", unit := "tCO2e",
    category := "emission", section_name := "EMISSIONS",
    aliases := ["CO2 Emissions", "CO2", "Carbon Dioxide"],
    applicable_assets := ["AFBC-1", "AFBC-2", "TG-1", "TG-2"] },
  { name := "so2_emissions", display_name := "SO₂ Emissions", unit := "kg",
    category := "emission", section_name := "EMISSIONS",
    aliases := ["SO2 Emissions", "SO2", "Sulfur Dioxide"],
    applicable_assets := ["AFBC-1", "AFBC-2"] },
  { name := "nox_emissions", display_name := "NOx Emissions", unit := "kg",
    category := "emission", section_name := "EMISSIONS",
    aliases := ["NOx Emissions", "NOx", "Nitrogen Oxides"],
    applicable_assets := ["AFBC-1", "AFBC-2"] },
  { name := "fly_ash_generated", display_name := "Fly Ash Generated", unit := "MT",
    category := "output", section_name := "WASTE",
    aliases := ["Fly Ash", "Fly Ash Generated", "Ash Output"],
    applicable_assets := ["AFBC-1", "AFBC-2"] },
  { name := "efficiency", display_name := "Boiler Efficiency", unit := "%",
    category := "calculated", section_name := "COGEN BOILER",
    aliases := ["Efficiency", "Plant Efficiency", "Overall Efficiency", "EFF %", "Boiler Efficiency"],
    applicable_assets := ["AFBC-1", "AFBC-2"] },
  { name := "specific_coal_consumption", display_name := "Specific Coal Consumption", unit := "kg/kWh",
    category := "calculated", section_name := "COGEN BOILER",
    aliases := ["Specific Coal Consumption", "SCC", "Coal Per Unit"],
    applicable_assets := ["AFBC-1", "AFBC-2"] },
  { name := "heat_rate", display_name := "Heat Rate", unit := "kcal/kWh",
    category := "calculated", section_name := "POWER PLANT",
    aliases := ["Heat Rate", "Heat Input Rate", "HR"],
    applicable_assets := ["TG-1", "TG-2"] },
  { name := "plant_load_factor", display_name := "Plant Load Factor", unit := "%",
    category := "calculated", section_name := "POWER PLANT",
    aliases := ["Plant Load Factor", "PLF", "Capacity Factor"],
    applicable_assets := ["TG-1", "TG-2"] },
  { name := "lignite_consumption", display_name := "Lignite Consumption", unit := "MT",
    category := "input", section_name := "COGEN BOILER",
    aliases := ["Lignite", "Lignite Consumption", "Brown Coal"],
    applicable_assets := ["AFBC-1", "AFBC-2"] },
  { name := "biomass_consumption", display_name := "Biomass Consumption", unit := "MT",
    category := "input", section_name := "COGEN BOILER",
    aliases := ["Biomass", "Biomass Consumption", "Bio-fuel"],
    applicable_assets := ["AFBC-1", "AFBC-2"] },
  { name := "production_output", display_name := "Production Output", unit := "MT",
    category := "output", section_name := "PRODUCTION",
    aliases := ["Production", "Output", "Production Output"],
    applicable_assets := ["VSF"] },
  { name := "operating_hours", display_name := "Operating Hours", unit := "hrs",
    category := "input", section_name := "OPERATIONS",
    aliases := ["Operating Hours", "Runtime", "Hours", "HOURS", "Uptime"],
    applicable_assets := ["AFBC-1", "AFBC-2", "TG-1", "TG-2", "VSF"] }
]

/-- `ASSET_REGISTRY` from `registries.py`, transcribed in full. -/
def ASSET_REGISTRY : List Asset := [
  { name := "AFBC-1", display_name := "AFBC Boiler 1", asset_type := "boiler",
    aliases := ["AFBC-1", "Boiler 1", "AFBC 1", "AFB1"] },
  { name := "AFBC-2", display_name := "AFBC Boiler 2", asset_type := "boiler",
    aliases := ["AFBC-2", "Boiler 2", "AFBC 2", "AFB2"] },
  { name := "TG-1", display_name := "Turbo Generator 1", asset_type := "turbine",
    aliases := ["TG-1", "TG1", "Turbine 1", "Generator 1"] },
  { name := "TG-2", display_name := "Turbo Generator 2", asset_type := "turbine",
    aliases := ["TG-2", "TG2", "Turbine 2", "Generator 2"] },
  { name := "VSF", display_name := "Viscose Staple Fiber", asset_type := "product",
    aliases := ["VSF", "Viscose Staple Fiber", "Fiber"] },
  { name := "KILN-1", display_name := "Rotary Kiln 1", asset_type := "kiln",
    aliases := ["KILN-1", "Kiln 1", "Rotary Kiln 1", "RK1"] }
]

/-- `_string_similarity` from `llm_agent.py`: simple character-overlap
similarity (the float constant `0.9` is the exact rational `9/10` in the
model). -/
def stringSimilarity (s1 s2 : String) : ℚ :=
  if s1 = s2 then 1
  else if s1 = "" ∨ s2 = "" then 0
  else if strContains s2 s1 || strContains s1 s2 then 9/10
  else
    let longer := if strLen s2 < strLen s1 then s1 else s2
    let shorter := if strLen s2 < strLen s1 then s2 else s1
    let matchCount := shorter.data.countP (fun c => longer.data.contains c)
    (matchCount : ℚ) / (strLen longer : ℚ)

/-- Python `f"{x:.2f}"` for the nonnegative similarity scores: two
decimal places (ties at the third decimal are a float-formatting corner
outside the model). -/
def format2f (q : ℚ) : String :=
  let n : ℤ := round (q * 100)
  let frac := (n % 100).natAbs
  toString (n / 100) ++ "." ++ (if frac < 10 then "0" else "") ++ toString frac

/-- The parameter-alias scan of `_fuzzy_match_header`: track the single
best-scoring parameter across all aliases, strict `>` so ties keep the
first found in registry order. -/
def bestParamMatch (header_lower : String) : ℚ × Option String :=
  PARAMETER_REGISTRY.foldl (fun acc param =>
    param.aliases.foldl (fun acc2 al =>
      let score := stringSimilarity header_lower (pyLower al)
      if acc2.1 < score then (score, some param.name) else acc2) acc)
    (0, none)

/-- The direct asset-alias scan of `_fuzzy_match_header`.  The Python
`break` leaves only the inner alias loop, so a later matching asset in
registry order overwrites an earlier one. -/
def directAssetMatch (header_lower : String) : Option String :=
  ASSET_REGISTRY.foldl (fun acc asset =>
    if asset.aliases.any (fun al => strContains header_lower (pyLower al)) then
      some asset.name
    else acc) none

/-- The merged boiler/turbine pattern table of `_infer_asset_from_text`,
in Python dict insertion order. -/
def assetPatterns : List (String × String) := [
  ("boiler 1", "AFBC-1"), ("boiler1", "AFBC-1"), ("boiler-1", "AFBC-1"), ("afbc-1", "AFBC-1"),
  ("boiler 2", "AFBC-2"), ("boiler2", "AFBC-2"), ("boiler-2", "AFBC-2"), ("afbc-2", "AFBC-2"),
  ("tg-1", "TG-1"), ("tg1", "TG-1"), ("turbine 1", "TG-1"), ("turbine1", "TG-1"),
  ("turbine-1", "TG-1"), ("generator 1", "TG-1"),
  ("tg-2", "TG-2"), ("tg2", "TG-2"), ("turbine 2", "TG-2"), ("turbine2", "TG-2"),
  ("turbine-2", "TG-2"), ("generator 2", "TG-2")
]

/-- `_infer_asset_from_text` from `llm_agent.py`: first pattern match in
the merged table, returning `(asset_name, was_inferred)`. -/
def inferAssetFromText (text : String) : Option String × Bool :=
  match assetPatterns.findSome?
      (fun pa => if strContains text pa.1 then some pa.2 else none) with
  | some a => (some a, true)
  | none => (none, false)

/-- `_fuzzy_match_header` from `llm_agent.py`: deterministic fallback
mapping of a header when the LLM is unavailable or fails. -/
def fuzzyMatchHeader (header : String) : MappingResult :=
  let header_lower := pyStrip (pyLower header)
  let bm := bestParamMatch header_lower
  let afterDirect :=
    match directAssetMatch header_lower with
    | some a => (some a, false)
    | none => inferAssetFromText header_lower
  let best_asset := afterDirect.1
  let asset_inferred := afterDirect.2
  let confidence0 :=
    if bm.1 > 85/100 then "high"
    else if bm.1 > 6/10 then "medium"
    else "low"
  let confidence :=
    if asset_inferred && best_asset.isSome then
      (if confidence0 = "high" then "medium" else confidence0)
    else confidence0
  let reason :=
    "Fuzzy matched with score " ++ format2f bm.1 ++
      (if asset_inferred then "; asset inferred from boiler/turbine mapping" else "")
  { header := header, param_name := bm.2, asset_name := best_asset,
    confidence := confidence, reason := reason }

/-- The fields the code reads (via `.get`) from the JSON object returned
by the LLM; a missing key or JSON `null` is `none`. -/
structure LlmJson where
  param_name : Option String
  asset_name : Option String
  confidence : Option String
  reason : Option String
deriving Repr, DecidableEq

/-- Outcome of invoking the external mapping oracle in
`_map_header_with_llm`: `raised` models any exception escaping the
`try` body (import failure, transport error, timeout, attribute error on
a non-object response, ...), `badJson` models response text that
`json.loads` cannot decode (`json.JSONDecodeError`), and `ok` a
successfully decoded JSON object. -/
inductive OracleOutcome where
  | raised
  | badJson
  | ok (j : LlmJson)
deriving Repr, DecidableEq

/-- `_map_header_with_llm` from `llm_agent.py`: both `except` arms fall
back to `_fuzzy_match_header`; a decoded object is turned into a
`MappingResult` with defaults for missing keys. -/
def mapHeaderWithLlm (header : String) (outcome : OracleOutcome) : MappingResult :=
  match outcome with
  | .raised => fuzzyMatchHeader header
  | .badJson => fuzzyMatchHeader header
  | .ok j =>
    { header := header, param_name := j.param_name, asset_name := j.asset_name,
      confidence := j.confidence.getD "medium", reason := j.reason.getD "LLM mapping" }

/-- The fixed block list `non_terms` of `_is_non_parameter`. -/
def nonParamTerms : List String :=
  ["date", "time", "timestamp", "day", "month", "year", "id", "comment", "notes", "remarks", "description"]

/-- ASCII single quote, as used by the Python f-string reason text. -/
def sglQuote : Char := Char.ofNat 39

/-- Reason `f"Non-parameter column detected: '{term}'"`. -/
def termReason (t : String) : String :=
  "Non-parameter column detected: " ++ String.mk [sglQuote] ++ t ++ String.mk [sglQuote]

/-- The `for term in non_terms` loop of `_is_non_parameter`, followed by
the generic-column check on fall-through.  `h` is the lowercased header;
note the `column_` prefix test runs on the *untrimmed* `h`, while the
`unnamed` test runs on `h.strip().lower()`. -/
def scanTerms (h : String) : List String → Bool × Option String
  | [] =>
    if pyStartsWith h "column_" || pyStartsWith (pyLower (pyStrip h)) "unnamed" then
      (true, some "Unnamed or generic column")
    else (false, none)
  | t :: ts => if strContains h t then (true, some (termReason t)) else scanTerms h ts

/-- `_is_non_parameter` from `llm_agent.py`. -/
def isNonParameter (header : String) : Bool × Option String :=
  if header = "" then (true, some "Empty header")
  else scanTerms (pyLower header) nonParamTerms

/-- One cell of the header-candidate row counts when it is truthy, a
string, and longer than 2 characters after trimming
(`detect_header_row`). -/
def meaningfulCell : CellValue → Bool
  | .str s => s ≠ "" && 2 < strLen (pyStrip s)
  | _ => false

/-- `string_count >= len(row) * 0.6`: the float comparison is modelled
by the exact rational inequality, scaled by 10 into ℕ so that it
evaluates in the kernel. -/
def rowQualifies (row : List CellValue) : Bool :=
  10 * row.countP meaningfulCell ≥ 6 * row.length

/-- `detect_header_row` from `llm_agent.py`: index of the first of the
first `min(max_rows_to_check, len(data))` rows whose fraction of
meaningful string cells is at least 0.6, defaulting to 0. -/
def detect_header_row (grid : List (List CellValue)) (maxRows : ℕ := 5) : ℕ :=
  match (List.range (min maxRows grid.length)).find?
      (fun i => rowQualifies (grid.getD i [])) with
  | some i => i
  | none => 0

/-- Warning `f"Row {row_idx} is empty, skipped"`. -/
def skipWarning (rowIdx : ℕ) : String :=
  "Row " ++ toString rowIdx ++ " is empty, skipped"

/-- Warning `f"Row {row_idx}, Col {col_idx}: {validation_warning}"`. -/
def cellWarning (rowIdx colIdx : ℕ) (w : String) : String :=
  "Row " ++ toString rowIdx ++ ", Col " ++ toString colIdx ++ ": " ++ w

/-- Notes `f"Parse method: {parse_method}, Valid: {is_valid}"`. -/
def notesStr (method : String) (ok : Bool) : String :=
  "Parse method: " ++ method ++ ", Valid: " ++ pyBool ok

/-- The body of the per-cell loop of `ExcelParser.parse_file` (lines
95-137): look up the column's mapping, skip unmapped columns, parse,
validate, reconcile confidence, build the `ParsedCell` and collect the
validation warning.  The accumulator carries the parsed cells and the
warnings appended so far. -/
def processCellStep (mappings : List MappingResult) (rowIdx : ℕ)
    (acc : List ParsedCell × List String) (p : ℕ × CellValue) :
    List ParsedCell × List String :=
  match mappings[p.1]? with
  | none => acc
  | some mapping =>
    match mapping.param_name with
    | none => acc
    | some pn =>
      let pr := parse_value p.2 pn
      let va := validate_value pr.1 pn
      let conf := finalConfidence mapping.confidence pr.1 pr.2 va.1
      let cell : ParsedCell :=
        { row := rowIdx, col := p.1, param_name := pn,
          asset_name := mapping.asset_name, raw_value := p.2,
          parsed_value := pr.1, confidence := conf, notes := notesStr pr.2 va.1 }
      (acc.1 ++ [cell],
        acc.2 ++ (match va.2 with
          | some w => [cellWarning rowIdx p.1 w]
          | none => []))

/-- Processing of one data row by `ExcelParser.parse_file` (lines
88-137): a row with no truthy cell is skipped with one warning naming
its index; otherwise each cell up to the header width is parsed (the
`col_idx >= len(headers)` break truncates the row). -/
def processRow (mappings : List MappingResult) (rowIdx : ℕ) (row : List CellValue) :
    List ParsedCell × List String :=
  if row.any truthy = false then ([], [skipWarning rowIdx])
  else ((row.take mappings.length).enum).foldl (processCellStep mappings rowIdx) ([], [])

/-- A `(param_name, asset_name)` duplication key. -/
abbrev DupKey := String × Option String

/-- `duplicates.setdefault(key, []).append(col_idx)`: append the column
index to the first entry holding `key`, or add a new entry at the end. -/
def addKey (acc : List (DupKey × List ℕ)) (k : DupKey) (i : ℕ) : List (DupKey × List ℕ) :=
  match acc with
  | [] => [(k, [i])]
  | e :: rest => if e.1 = k then (e.1, e.2 ++ [i]) :: rest else e :: addKey rest k i

/-- The grouping loop of `ExcelParser.parse_file` (lines 144-149): group
the mapped columns by `(param_name, asset_name)` in first-occurrence
order, each key holding its column indices in column order. -/
def collectDuplicates (ms : List MappingResult) : List (DupKey × List ℕ) :=
  ms.enum.foldl (fun acc p =>
    match p.2.param_name with
    | none => acc
    | some pn => addKey acc (pn, p.2.asset_name) p.1) []

/-- Python `str(asset)` inside the duplication f-string: `None` renders
as `"None"`. -/
def renderAsset : Option String → String
  | none => "None"
  | some a => a

/-- Warning `f"Column duplication: {param} ({asset}) appears in columns
{cols[0]} and {cols[1]}"`. -/
def renderDupWarning (k : DupKey) (c0 c1 : ℕ) : String :=
  "Column duplication: " ++ k.1 ++ " (" ++ renderAsset k.2 ++ ") appears in columns " ++
    toString c0 ++ " and " ++ toString c1

/-- The duplication-warning emission of `ExcelParser.parse_file` (lines
158-163), keeping the structured data `(key, cols[0], cols[1])` of each
emitted warning. -/
def duplicateWarningData (ms : List MappingResult) : List (DupKey × ℕ × ℕ) :=
  (collectDuplicates ms).filterMap (fun e =>
    match e.2 with
    | c0 :: c1 :: _ => some (e.1, c0, c1)
    | _ => none)

/-- The duplication warnings exactly as rendered by the code. -/
def duplicateWarnings (ms : List MappingResult) : List String :=
  (collectDuplicates ms).filterMap (fun e =>
    match e.2 with
    | c0 :: c1 :: _ => some (renderDupWarning e.1 c0 c1)
    | _ => none)

/-- Outcome of the `efficiency` block of `validate_value` when its range
check `parsed_value < 0 or parsed_value > 1` fires; `(true, none)` when
it does not fire (the block falls through). -/
def ruleOutcomeEff (v : ℚ) : Bool × Option String :=
  if v < 0 ∨ v > 1 then
    (if v > 100 then (false, some (effExceedMsg v)) else (true, some (effVerifyMsg v)))
  else (true, none)

/-- Outcome of the `coal` block of `validate_value`. -/
def ruleOutcomeCoal (v : ℚ) : Bool × Option String :=
  if v < 0 then (false, some (coalMsg v)) else (true, none)

/-- Outcome of the `power` block of `validate_value`. -/
def ruleOutcomePower (v : ℚ) : Bool × Option String :=
  if v < 0 then (false, some (powerMsg v)) else (true, none)

/-- Outcome of the `hour` block of `validate_value`. -/
def ruleOutcomeHour (v : ℚ) : Bool × Option String :=
  if v < 0 ∨ v > 24 then (false, some (hourMsg v)) else (true, none)

/-- Modelled from the spec: "apply rules in this fixed order and let the
last matching rule's outcome stand".  The refinement target C3 compares
`validate_value` against: scan the efficiency, coal, power, hour rules
in order and keep the outcome of the last rule whose substring matches
the parameter identity. -/
def lastMatchingRuleResult (v : ℚ) (p : String) : Bool × Option String :=
  let r0 : Bool × Option String := (true, none)
  let r1 := if paramHas p "efficiency" then ruleOutcomeEff v else r0
  let r2 := if paramHas p "coal" then ruleOutcomeCoal v else r1
  let r3 := if paramHas p "power" then ruleOutcomePower v else r2
  if paramHas p "hour" then ruleOutcomeHour v else r3


/-- The columns whose mapping carries the key `k`: positions of the
mapped columns with that `(param_name, asset_name)`, in column order. -/
def mappedCols (ms : List MappingResult) (k : DupKey) : List ℕ :=
  (ms.enum.filter
    (fun p => decide (p.2.param_name = some k.1 ∧ p.2.asset_name = k.2))).map Prod.fst

/-- The entry stored for key `k` in a duplication accumulator, if any. -/
def findKey : List (DupKey × List ℕ) → DupKey → Option (List ℕ)
  | [], _ => none
  | e :: t, k => if e.1 = k then some e.2 else findKey t k

/-- The column list stored for `k` in a duplication accumulator (`[]`
when `k` is absent). -/
def keyCols (acc : List (DupKey × List ℕ)) (k : DupKey) : List ℕ :=
  (findKey acc k).getD []

/-- Keys of a duplication accumulator, in entry order. -/
def keysOf (acc : List (DupKey × List ℕ)) : List DupKey :=
  acc.map Prod.fst

theorem containsSub_append_right (a b n : List Char) (h : containsSub b n = true) :
    containsSub (a ++ b) n = true := by
  induction a with
  | nil => simpa using h
  | cons c t ih =>
    simp only [List.cons_append, containsSub, Bool.or_eq_true]
    exact Or.inr ih

theorem strContains_append_right (a b n : String) (h : strContains b n = true) :
    strContains (a ++ b) n = true := by
  unfold strContains at *
  rw [String.data_append]
  exact containsSub_append_right a.data b.data n.data h

theorem effExceedMsg_has_100 (v : ℚ) : strContains (effExceedMsg v) "100%" = true := by
  unfold effExceedMsg
  exact strContains_append_right _ _ _ (by decide)

theorem scanTerms_eq (h : String) (ts : List String) :
    scanTerms h ts =
      match ts.find? (fun t => strContains h t) with
      | some t => (true, some (termReason t))
      | none =>
        if pyStartsWith h "column_" || pyStartsWith (pyLower (pyStrip h)) "unnamed" then
          (true, some "Unnamed or generic column")
        else (false, none) := by
  induction ts with
  | nil => rfl
  | cons t ts ih =>
    simp only [scanTerms, List.find?]
    cases hc : strContains h t
    · simpa [hc] using ih
    · simp [hc]

/-- C5: for every header, when the oracle invocation fails in any way
(raises, or returns output that does not decode to a JSON mapping
object), `_map_header_with_llm` returns exactly the FuzzyMatcher result
for that header, and being a total function it propagates no failure to
the caller. -/
theorem c5_oracle_failure_falls_back (header : String) (outcome : OracleOutcome)
    (h : outcome = OracleOutcome.raised ∨ outcome = OracleOutcome.badJson) :
    mapHeaderWithLlm header outcome = fuzzyMatchHeader header := by
  rcases h with h | h <;> subst h <;> rfl

theorem c5_oracle_failure_falls_back_witness :
    (OracleOutcome.raised = OracleOutcome.raised ∨
      OracleOutcome.raised = OracleOutcome.badJson) ∧
    mapHeaderWithLlm "Coal Used (MT)" OracleOutcome.raised = fuzzyMatchHeader "Coal Used (MT)" :=
  ⟨Or.inl rfl,
    c5_oracle_failure_falls_back "Coal Used (MT)" OracleOutcome.raised (Or.inl rfl)⟩

/-- C9: a native boolean cell takes the native-number branch of
`parse_value` (Python `bool` is an `int`), giving `(1.0,
"numeric_direct")` for `True` and `(0.0, "numeric_direct")` for `False`
for every parameter identity; the `"unexpected_boolean"` refusal is
reachable only for string cells. -/
theorem c9_native_booleans_numeric (b : Bool) (p : String) (v : CellValue) (q : String) :
    parse_value (.bool b) p = (some (if b then 1 else 0), "numeric_direct") ∧
    ((parse_value v q).2 = "unexpected_boolean" → ∃ s, v = CellValue.str s) := by
  constructor
  · cases b
    · show inferEfficiency (if false then 1 else 0) p
        "numeric_direct_inferred_percentage" "numeric_direct" = _
      unfold inferEfficiency
      rw [if_neg]
      rintro ⟨-, h1, -⟩
      norm_num at h1
    · show inferEfficiency (if true then 1 else 0) p
        "numeric_direct_inferred_percentage" "numeric_direct" = _
      unfold inferEfficiency
      rw [if_neg]
      rintro ⟨-, h1, -⟩
      norm_num at h1
  · cases v with
    | null => intro hx; simp [parse_value] at hx
    | num q0 =>
      intro hx
      simp only [parse_value] at hx
      unfold inferEfficiency at hx
      split_ifs at hx <;> simp at hx
    | bool b0 =>
      intro hx
      simp only [parse_value] at hx
      unfold inferEfficiency at hx
      split_ifs at hx <;> simp at hx
    | str s => intro _; exact ⟨s, rfl⟩

theorem c9_native_booleans_numeric_witness :
    ((parse_value (CellValue.str "YES") "coal_consumption").2 = "unexpected_boolean") ∧
    (∃ s, CellValue.str "YES" = CellValue.str s) :=
  ⟨by decide,
    (c9_native_booleans_numeric true "coal_consumption"
      (CellValue.str "YES") "coal_consumption").2 (by decide)⟩

/-- C4: for every parameter identity containing "efficiency", a parsed
value is valid without warning only when it lies in [0,1]; any value
greater than 100 is invalid with the message referencing the 100% bound
(in particular at 150); values in (1,100] are valid with the
decimal-vs-percentage advisory warning. -/
theorem c4_efficiency_validation (v : ℚ) (p : String)
    (heff : paramHas p "efficiency" = true) :
    (validate_value (some v) p = (true, none) → 0 ≤ v ∧ v ≤ 1) ∧
    (100 < v → validate_value (some v) p = (false, some (effExceedMsg v)) ∧
      strContains (effExceedMsg v) "100%" = true) ∧
    (1 < v → v ≤ 100 → validate_value (some v) p = (true, some (effVerifyMsg v))) := by
  refine ⟨?_, ?_, ?_⟩
  · intro h
    constructor
    · by_contra hv
      push_neg at hv
      simp only [validate_value] at h
      rw [if_pos ⟨heff, Or.inl hv⟩] at h
      split_ifs at h <;> simp at h
    · by_contra hv
      push_neg at hv
      simp only [validate_value] at h
      rw [if_pos ⟨heff, Or.inr hv⟩] at h
      split_ifs at h <;> simp at h
  · intro h100
    simp only [validate_value]
    rw [if_pos ⟨heff, Or.inr (by linarith)⟩, if_pos h100]
    exact ⟨rfl, effExceedMsg_has_100 v⟩
  · intro h1 h100
    simp only [validate_value]
    rw [if_pos ⟨heff, Or.inr h1⟩, if_neg (by linarith)]

theorem c4_efficiency_validation_witness :
    paramHas "efficiency" "efficiency" = true ∧
    (validate_value (some 150) "efficiency" = (false, some (effExceedMsg 150)) ∧
      strContains (effExceedMsg 150) "100%" = true) :=
  ⟨by decide, (c4_efficiency_validation 150 "efficiency" (by decide)).2.1 (by norm_num)⟩

/-- C2 counterexample: on the grid exactly as the claim writes it
(ragged rows), `detect_header_row` returns 0, not 2 — the single-cell
first row `["Report Title"]` already passes the 60% threshold (1 ≥
1·0.6). -/
theorem c2_header_detection_counterexample :
    detect_header_row [[CellValue.str "Report Title"], [],
      [CellValue.str "Date", CellValue.str "Coal Consumption",
        CellValue.str "Power Generation"]] 5 = 0 ∧
    detect_header_row [[CellValue.str "Report Title"], [],
      [CellValue.str "Date", CellValue.str "Coal Consumption",
        CellValue.str "Power Generation"]] 5 ≠ 2 := by
  constructor <;> decide

/-- C2 amended: on the rectangular grid the spreadsheet reader actually
produces (rows padded to width 3 with nulls), header-row detection with
the default scan limit of 5 returns index 2. -/
theorem c2_header_detection_padded :
    detect_header_row
      [[CellValue.str "Report Title", CellValue.null, CellValue.null],
       [CellValue.null, CellValue.null, CellValue.null],
       [CellValue.str "Date", CellValue.str "Coal Consumption",
        CellValue.str "Power Generation"]] 5 = 2 := by decide

/-- C6 counterexample: the header `" Column_1"` — whose trimmed,
lowercased form starts with `column_`, so the claim predicts `(true,
"Unnamed or generic column")` — is classified `(false, none)`, because
the code tests the `column_` prefix on the *untrimmed* lowercased
header. -/
theorem c6_non_parameter_counterexample :
    isNonParameter " Column_1" = (false, none) ∧
    pyStartsWith (pyLower (pyStrip " Column_1")) "column_" = true := by
  constructor <;> decide

/-- C6 amended: `_is_non_parameter` applies its checks in order with
first match winning: empty header → `(true, "Empty header")`; else the
first block-set term contained in the lowercased header names the
reason; else a header whose lowercased (untrimmed) form starts with
`column_`, or whose trimmed lowercased form starts with `unnamed`,
yields `(true, "Unnamed or generic column")`; else `(false, none)`. -/
theorem c6_non_parameter_checks (h : String) :
    (h = "" → isNonParameter h = (true, some "Empty header")) ∧
    (∀ t, h ≠ "" → nonParamTerms.find? (fun t0 => strContains (pyLower h) t0) = some t →
      isNonParameter h = (true, some (termReason t))) ∧
    (h ≠ "" → nonParamTerms.find? (fun t0 => strContains (pyLower h) t0) = none →
      (pyStartsWith (pyLower h) "column_" ||
        pyStartsWith (pyLower (pyStrip (pyLower h))) "unnamed") = true →
      isNonParameter h = (true, some "Unnamed or generic column")) ∧
    (h ≠ "" → nonParamTerms.find? (fun t0 => strContains (pyLower h) t0) = none →
      (pyStartsWith (pyLower h) "column_" ||
        pyStartsWith (pyLower (pyStrip (pyLower h))) "unnamed") = false →
      isNonParameter h = (false, none)) := by
  refine ⟨?_, ?_, ?_, ?_⟩
  · intro he
    unfold isNonParameter
    rw [if_pos he]
  · intro t hne hfind
    unfold isNonParameter
    rw [if_neg hne, scanTerms_eq, hfind]
  · intro hne hfind hsw
    unfold isNonParameter
    rw [if_neg hne, scanTerms_eq, hfind]
    simp [hsw]
  · intro hne hfind hsw
    unfold isNonParameter
    rw [if_neg hne, scanTerms_eq, hfind]
    simp [hsw]

theorem c6_non_parameter_checks_witness :
    ("Column_5" ≠ "") ∧
    nonParamTerms.find? (fun t0 => strContains (pyLower "Column_5") t0) = none ∧
    (pyStartsWith (pyLower "Column_5") "column_" ||
      pyStartsWith (pyLower (pyStrip (pyLower "Column_5"))) "unnamed") = true ∧
    isNonParameter "Column_5" = (true, some "Unnamed or generic column") :=
  ⟨by decide, by decide, by decide,
    (c6_non_parameter_checks "Column_5").2.2.1 (by decide) (by decide) (by decide)⟩

/-- C3 counterexample: for the identity `"efficiency_hours"` (which
contains both `efficiency` and `hour`) at value 150, `validate_value`
returns the efficiency rule's failure, not the hour rule's outcome as
the last-matching-rule-wins claim predicts. -/
theorem c3_last_rule_counterexample :
    validate_value (some 150) "efficiency_hours" = (false, some (effExceedMsg 150)) ∧
    lastMatchingRuleResult 150 "efficiency_hours" = (false, some (hourMsg 150)) ∧
    validate_value (some 150) "efficiency_hours" ≠
      lastMatchingRuleResult 150 "efficiency_hours" := by
  refine ⟨by decide, by decide, by decide⟩

/-- C3 amended: `validate_value` scans its substring-matched rules in
the fixed order efficiency, coal, power, hour, and returns at the
*first* matching rule whose range check fires (for efficiency, a value
outside [0,1], which also returns the advisory-warning outcome); a rule
whose substring matches but whose check passes defers to later rules;
when no matching rule's check fires the result is `(true, none)`. -/
theorem c3_first_firing_rule (v : ℚ) (p : String) :
    (paramHas p "efficiency" = true → (v < 0 ∨ v > 1) →
      validate_value (some v) p = ruleOutcomeEff v) ∧
    (¬(paramHas p "efficiency" = true ∧ (v < 0 ∨ v > 1)) →
      paramHas p "coal" = true → v < 0 →
      validate_value (some v) p = ruleOutcomeCoal v) ∧
    (¬(paramHas p "efficiency" = true ∧ (v < 0 ∨ v > 1)) →
      ¬(paramHas p "coal" = true ∧ v < 0) →
      paramHas p "power" = true → v < 0 →
      validate_value (some v) p = ruleOutcomePower v) ∧
    (¬(paramHas p "efficiency" = true ∧ (v < 0 ∨ v > 1)) →
      ¬(paramHas p "coal" = true ∧ v < 0) →
      ¬(paramHas p "power" = true ∧ v < 0) →
      paramHas p "hour" = true → (v < 0 ∨ v > 24) →
      validate_value (some v) p = ruleOutcomeHour v) ∧
    (¬(paramHas p "efficiency" = true ∧ (v < 0 ∨ v > 1)) →
      ¬(paramHas p "coal" = true ∧ v < 0) →
      ¬(paramHas p "power" = true ∧ v < 0) →
      ¬(paramHas p "hour" = true ∧ (v < 0 ∨ v > 24)) →
      validate_value (some v) p = (true, none)) := by
  refine ⟨?_, ?_, ?_, ?_, ?_⟩
  · intro he hg
    simp only [validate_value]
    rw [if_pos ⟨he, hg⟩]
    unfold ruleOutcomeEff
    rw [if_pos hg]
  · intro hne hc hv
    simp only [validate_value]
    rw [if_neg hne, if_pos ⟨hc, hv⟩]
    unfold ruleOutcomeCoal
    rw [if_pos hv]
  · intro hne hnc hp hv
    simp only [validate_value]
    rw [if_neg hne, if_neg hnc, if_pos ⟨hp, hv⟩]
    unfold ruleOutcomePower
    rw [if_pos hv]
  · intro hne hnc hnp hh hg
    simp only [validate_value]
    rw [if_neg hne, if_neg hnc, if_neg hnp, if_pos ⟨hh, hg⟩]
    unfold ruleOutcomeHour
    rw [if_pos hg]
  · intro hne hnc hnp hnh
    simp only [validate_value]
    rw [if_neg hne, if_neg hnc, if_neg hnp, if_neg hnh]

theorem c3_first_firing_rule_witness :
    paramHas "efficiency_hours" "efficiency" = true ∧
    ((150:ℚ) < 0 ∨ (150:ℚ) > 1) ∧
    validate_value (some 150) "efficiency_hours" = ruleOutcomeEff 150 :=
  ⟨by decide, Or.inr (by decide),
    (c3_first_firing_rule 150 "efficiency_hours").1 (by decide) (Or.inr (by decide))⟩

/-- C1 counterexample: a column mapped at `low` confidence whose cell is
unparseable text yields a `ParsedCell` with final confidence `medium` —
the null/unparseable reconciliation rule sets `medium` unconditionally,
*upgrading* a `low` mapping confidence. -/
theorem c1_downgrade_counterexample :
    (processRow [⟨"Coal", some "coal_consumption", none, "low", "fuzzy"⟩] 1
      [CellValue.str "abc"]).1.map (fun c => c.confidence) = ["medium"] ∧
    confRank "low" < confRank "medium" := by
  constructor <;> decide

/-- C1 amended: the confidence reconciliation never raises a cell's
confidence above its column's mapping confidence, *except* in one case:
a `low`-confidence mapping whose cell parses to `None` with method
`null_value` or `unparseable` and passes validation is raised to
`medium`.  Outside that case only downgrades happen. -/
theorem c1_confidence_downgrade (mc : String) (pv : Option ℚ) (method : String) (ok : Bool)
    (hmc : mc = "low" ∨ mc = "medium" ∨ mc = "high")
    (hex : ¬(mc = "low" ∧ pv = none ∧
      (method = "null_value" ∨ method = "unparseable") ∧ ok = true)) :
    confRank (finalConfidence mc pv method ok) ≤ confRank mc := by
  rcases hmc with h | h | h <;> subst h <;>
    simp only [finalConfidence] <;>
    split_ifs with hok h3 hunexp hext <;>
    try decide
  · exact absurd ⟨rfl, h3.1, h3.2, hok⟩ hex
  · exact absurd hext.2 (by decide)

theorem c1_confidence_downgrade_witness :
    (("high":String) = "low" ∨ ("high":String) = "medium" ∨ ("high":String) = "high") ∧
    ¬(("high":String) = "low" ∧ (none : Option ℚ) = none ∧
      (("unparseable":String) = "null_value" ∨ ("unparseable":String) = "unparseable") ∧
      true = true) ∧
    confRank (finalConfidence "high" none "unparseable" true) ≤ confRank "high" :=
  ⟨Or.inr (Or.inr rfl), by decide,
    c1_confidence_downgrade "high" none "unparseable" true
      (Or.inr (Or.inr rfl)) (by decide)⟩

theorem data_ne_nil_of_ne_empty (a : String) (ha : a ≠ "") : a.data ≠ [] := by
  intro hd
  exact ha (String.ext hd)

theorem stringSimilarity_nonneg (a b : String) : 0 ≤ stringSimilarity a b := by
  unfold stringSimilarity
  split_ifs with h1 h2 h3 hc
  · norm_num
  · norm_num
  · norm_num
  · exact div_nonneg (Nat.cast_nonneg _) (Nat.cast_nonneg _)
  · exact div_nonneg (Nat.cast_nonneg _) (Nat.cast_nonneg _)

theorem stringSimilarity_le_one (a b : String) : stringSimilarity a b ≤ 1 := by
  unfold stringSimilarity
  split_ifs with h1 h2 h3 hc
  · norm_num
  · norm_num
  · norm_num
  · push_neg at h2
    have ha' := data_ne_nil_of_ne_empty a h2.1
    dsimp only
    rw [div_le_one]
    · exact_mod_cast le_trans (List.countP_le_length _) (le_of_lt hc)
    · exact_mod_cast Nat.pos_of_ne_zero (fun hz => ha' (List.length_eq_zero.mp hz))
  · push_neg at h2
    have hb' := data_ne_nil_of_ne_empty b h2.2
    dsimp only
    rw [div_le_one]
    · exact_mod_cast le_trans (List.countP_le_length _) (not_lt.mp hc)
    · exact_mod_cast Nat.pos_of_ne_zero (fun hz => hb' (List.length_eq_zero.mp hz))

/-- C8: the string-similarity function is reflexively 1 on every
non-empty string and always lands in the closed interval [0, 1]. -/
theorem c8_similarity_bounds (s a b : String) :
    (s ≠ "" → stringSimilarity s s = 1) ∧
    0 ≤ stringSimilarity a b ∧ stringSimilarity a b ≤ 1 :=
  ⟨fun _ => by simp [stringSimilarity],
    stringSimilarity_nonneg a b, stringSimilarity_le_one a b⟩

theorem c8_similarity_bounds_witness :
    ("abc" ≠ "") ∧ stringSimilarity "abc" "abc" = 1 ∧
    0 ≤ stringSimilarity "ab" "xy" ∧ stringSimilarity "ab" "xy" ≤ 1 :=
  ⟨by decide, (c8_similarity_bounds "abc" "ab" "xy").1 (by decide),
    (c8_similarity_bounds "abc" "ab" "xy").2.1,
    (c8_similarity_bounds "abc" "ab" "xy").2.2⟩

theorem skipWarning_ne_cellWarning (r c : ℕ) (w : String) :
    skipWarning r ≠ cellWarning r c w := by
  intro h
  have h1 := congrArg String.data h
  simp only [skipWarning, cellWarning, String.data_append, List.append_assoc] at h1
  have h2 := List.append_cancel_left h1
  have h3 := List.append_cancel_left h2
  simp only [List.cons_append] at h3
  injection h3 with hc _
  exact absurd hc (by decide)

theorem processRow_warnings_shape (mappings : List MappingResult) (rowIdx : ℕ) :
    ∀ (pairs : List (ℕ × CellValue)) (acc : List ParsedCell × List String),
      ∀ w ∈ (pairs.foldl (processCellStep mappings rowIdx) acc).2,
        w ∈ acc.2 ∨ ∃ c v, w = cellWarning rowIdx c v := by
  intro pairs
  induction pairs with
  | nil => intro acc w hw; exact Or.inl hw
  | cons p ps ih =>
    intro acc w hw
    rw [List.foldl_cons] at hw
    rcases ih _ w hw with hmem | hex
    · simp only [processCellStep] at hmem
      split at hmem
      · exact Or.inl hmem
      · split at hmem
        · exact Or.inl hmem
        · simp only [List.mem_append] at hmem
          rcases hmem with h | h
          · exact Or.inl h
          · right
            split at h
            · exact ⟨p.1, _, List.mem_singleton.mp h⟩
            · simp at h
    · exact Or.inr hex

/-- C10: a data row below the header is skipped — producing no
`ParsedCell`s and recording exactly the one skip warning naming its
index — precisely when every cell in it is Python-falsy, so a row of
numeric zeros, empty strings or `False` values is treated like an
entirely empty row. -/
theorem c10_falsy_row_skipped (mappings : List MappingResult) (rowIdx : ℕ)
    (row : List CellValue) :
    (∀ c ∈ row, truthy c = false) ↔
      processRow mappings rowIdx row = ([], [skipWarning rowIdx]) := by
  constructor
  · intro h
    unfold processRow
    rw [if_pos (List.any_eq_false.mpr (fun c hc => by simp [h c hc]))]
  · intro h c hc
    by_contra ht
    rw [Bool.not_eq_false] at ht
    have hany : row.any truthy = true := List.any_eq_true.mpr ⟨c, hc, ht⟩
    unfold processRow at h
    rw [if_neg (by simp [hany])] at h
    have hskip : skipWarning rowIdx ∈
        (((row.take mappings.length).enum).foldl
          (processCellStep mappings rowIdx) ([], [])).2 := by
      rw [h]
      exact List.mem_singleton_self _
    rcases processRow_warnings_shape mappings rowIdx _ _ _ hskip with hmem | ⟨c0, v0, heq⟩
    · simp at hmem
    · exact skipWarning_ne_cellWarning rowIdx c0 v0 heq

theorem c10_falsy_row_skipped_witness :
    (∀ c ∈ [CellValue.num 0, CellValue.str "", CellValue.bool false],
      truthy c = false) ∧
    processRow [] 3 [CellValue.num 0, CellValue.str "", CellValue.bool false] =
      ([], [skipWarning 3]) :=
  ⟨by decide,
    (c10_falsy_row_skipped [] 3
      [CellValue.num 0, CellValue.str "", CellValue.bool false]).mp (by decide)⟩

theorem findKey_addKey_same (acc : List (DupKey × List ℕ)) (k : DupKey) (i : ℕ) :
    findKey (addKey acc k i) k = some (keyCols acc k ++ [i]) := by
  induction acc with
  | nil => simp [addKey, findKey, keyCols]
  | cons e t ih =>
    by_cases hek : e.1 = k
    · simp [addKey, hek, findKey, keyCols]
    · simp [addKey, hek, findKey, keyCols, ih]

theorem findKey_addKey_ne (acc : List (DupKey × List ℕ)) (k k' : DupKey) (i : ℕ)
    (h : k' ≠ k) : findKey (addKey acc k i) k' = findKey acc k' := by
  induction acc with
  | nil => simp [addKey, findKey, Ne.symm h]
  | cons e t ih =>
    by_cases hek : e.1 = k
    · unfold addKey
      rw [if_pos hek]
      unfold findKey
      rw [if_neg (by rw [hek]; exact Ne.symm h), if_neg (by rw [hek]; exact Ne.symm h)]
    · unfold addKey
      rw [if_neg hek]
      unfold findKey
      by_cases hek' : e.1 = k'
      · rw [if_pos hek', if_pos hek']
      · rw [if_neg hek', if_neg hek']
        exact ih

theorem keyCols_addKey_same (acc : List (DupKey × List ℕ)) (k : DupKey) (i : ℕ) :
    keyCols (addKey acc k i) k = keyCols acc k ++ [i] := by
  unfold keyCols
  rw [findKey_addKey_same]
  rfl

theorem keyCols_addKey_ne (acc : List (DupKey × List ℕ)) (k k' : DupKey) (i : ℕ)
    (h : k' ≠ k) : keyCols (addKey acc k i) k' = keyCols acc k' := by
  unfold keyCols
  rw [findKey_addKey_ne acc k k' i h]

theorem mem_keysOf_addKey (k : DupKey) (i : ℕ) (x : DupKey) :
    ∀ acc, x ∈ keysOf (addKey acc k i) → x ∈ keysOf acc ∨ x = k := by
  intro acc
  induction acc with
  | nil =>
    intro hx
    simp [addKey, keysOf] at hx
    exact Or.inr hx
  | cons e t ih =>
    by_cases hek : e.1 = k
    · intro hx
      simp only [addKey, if_pos hek, keysOf, List.map_cons, List.mem_cons] at hx ⊢
      exact Or.inl hx
    · intro hx
      simp only [addKey, if_neg hek, keysOf, List.map_cons, List.mem_cons] at hx ⊢
      rcases hx with h | h
      · exact Or.inl (Or.inl h)
      · rcases ih h with h2 | h2
        · exact Or.inl (Or.inr h2)
        · exact Or.inr h2

theorem keysOf_addKey_nodup (k : DupKey) (i : ℕ) :
    ∀ acc, (keysOf acc).Nodup → (keysOf (addKey acc k i)).Nodup := by
  intro acc
  induction acc with
  | nil => intro _; simp [addKey, keysOf]
  | cons e t ih =>
    intro hnd
    simp only [keysOf, List.map_cons, List.nodup_cons] at hnd
    by_cases hek : e.1 = k
    · simp only [addKey, if_pos hek, keysOf, List.map_cons, List.nodup_cons]
      exact ⟨hnd.1, hnd.2⟩
    · simp only [addKey, if_neg hek, keysOf, List.map_cons, List.nodup_cons]
      refine ⟨?_, ih hnd.2⟩
      intro hmem
      rcases mem_keysOf_addKey k i e.1 t hmem with h | h
      · exact hnd.1 h
      · exact hek h

theorem filter_eq_findKey_of_nodup (k : DupKey) :
    ∀ acc : List (DupKey × List ℕ), (keysOf acc).Nodup →
      acc.filter (fun e => e.1 = k) =
        match findKey acc k with
        | some cs => [(k, cs)]
        | none => [] := by
  intro acc
  induction acc with
  | nil => intro _; rfl
  | cons e t ih =>
    intro hnd
    simp only [keysOf, List.map_cons, List.nodup_cons] at hnd
    by_cases hek : e.1 = k
    · rw [List.filter_cons_of_pos (by simp [hek])]
      unfold findKey
      rw [if_pos hek]
      have ht : t.filter (fun e2 => decide (e2.1 = k)) = [] := by
        rw [List.filter_eq_nil_iff]
        intro e2 he2
        simp only [decide_eq_true_eq]
        intro hk2
        exact hnd.1 (by rw [hek, ← hk2]; exact List.mem_map_of_mem Prod.fst he2)
      rw [ht]
      rcases e with ⟨e1, e2⟩
      simp only at hek
      rw [hek]
    · rw [List.filter_cons_of_neg (by simp [hek])]
      unfold findKey
      rw [if_neg hek]
      exact ih hnd.2

theorem collect_step_keyCols (k : DupKey) :
    ∀ (pairs : List (ℕ × MappingResult)) (acc : List (DupKey × List ℕ)),
      keyCols (pairs.foldl (fun acc2 p =>
        match p.2.param_name with
        | none => acc2
        | some pn => addKey acc2 (pn, p.2.asset_name) p.1) acc) k =
      keyCols acc k ++ (pairs.filter (fun p =>
        decide (p.2.param_name = some k.1 ∧ p.2.asset_name = k.2))).map Prod.fst := by
  intro pairs
  induction pairs with
  | nil => intro acc; simp
  | cons p ps ih =>
    intro acc
    rw [List.foldl_cons]
    rcases hpn : p.2.param_name with _ | pn
    · simp only [hpn]
      rw [ih, List.filter_cons_of_neg (by simp [hpn])]
    · simp only [hpn]
      by_cases hk : (pn, p.2.asset_name) = k
      · have hk1 : pn = k.1 := by rw [← hk]
        have hk2 : p.2.asset_name = k.2 := by rw [← hk]
        rw [ih, hk, keyCols_addKey_same,
          List.filter_cons_of_pos (by simp [hpn, hk1, hk2])]
        simp
      · rw [ih, keyCols_addKey_ne _ _ _ _ (fun h => hk h.symm),
          List.filter_cons_of_neg ?hneg]
        case hneg =>
          simp only [hpn, decide_eq_true_eq, Bool.not_eq_true]
          rintro ⟨h1, h2⟩
          apply hk
          have h3 : pn = k.1 := by injection h1
          rw [h3, h2]

theorem collect_step_nodup :
    ∀ (pairs : List (ℕ × MappingResult)) (acc : List (DupKey × List ℕ)),
      (keysOf acc).Nodup →
      (keysOf (pairs.foldl (fun acc2 p =>
        match p.2.param_name with
        | none => acc2
        | some pn => addKey acc2 (pn, p.2.asset_name) p.1) acc)).Nodup := by
  intro pairs
  induction pairs with
  | nil => intro acc h; exact h
  | cons p ps ih =>
    intro acc h
    rw [List.foldl_cons]
    rcases hpn : p.2.param_name with _ | pn
    · simp only [hpn]
      exact ih acc h
    · simp only [hpn]
      exact ih _ (keysOf_addKey_nodup _ _ acc h)

theorem dupEntry_key (e : DupKey × List ℕ) (d : DupKey × ℕ × ℕ)
    (hd : (match e.2 with
      | c0 :: c1 :: _ => some (e.1, c0, c1)
      | _ => none) = some d) : d.1 = e.1 := by
  rcases e with ⟨k0, cols⟩
  match cols, hd with
  | c0 :: c1 :: tl, hd =>
    simp only at hd
    injection hd with h
    rw [← h]

theorem filter_filterMap_comm (f : DupKey × List ℕ → Option (DupKey × ℕ × ℕ))
    (hf : ∀ e d, f e = some d → d.1 = e.1) (k : DupKey) :
    ∀ l : List (DupKey × List ℕ), (l.filterMap f).filter (fun e => e.1 = k) =
      (l.filter (fun e => e.1 = k)).filterMap f := by
  intro l
  induction l with
  | nil => rfl
  | cons e t ih =>
    rw [List.filterMap_cons]
    rcases hfe : f e with _ | d
    · by_cases hek : e.1 = k
      · rw [List.filter_cons_of_pos (by simp [hek]), List.filterMap_cons, hfe]
        exact ih
      · rw [List.filter_cons_of_neg (by simp [hek])]
        exact ih
    · have hd := hf e d hfe
      by_cases hek : e.1 = k
      · rw [List.filter_cons_of_pos (by simp [hd, hek]),
          List.filter_cons_of_pos (by simp [hek]), List.filterMap_cons, hfe, ih]
      · rw [List.filter_cons_of_neg (by simp [hd, hek]),
          List.filter_cons_of_neg (by simp [hek])]
        exact ih

theorem map_render_eq (e : DupKey × List ℕ) :
    ((match e.2 with
      | c0 :: c1 :: _ => some (e.1, c0, c1)
      | _ => none : Option (DupKey × ℕ × ℕ))).map
        (fun d => renderDupWarning d.1 d.2.1 d.2.2) =
    (match e.2 with
      | c0 :: c1 :: _ => some (renderDupWarning e.1 c0 c1)
      | _ => none) := by
  rcases e with ⟨k0, cols⟩
  match cols with
  | [] => rfl
  | [c] => rfl
  | c0 :: c1 :: tl => rfl

/-- C7: the duplication-warning stage emits exactly one warning per
`(parameter, asset)` key shared by two or more mapped columns —
independent of how many columns share the key — and that warning names
the parameter, the asset, and the first two colliding column indices;
keys with at most one mapped column produce no duplication warning.
(First conjunct: the structured warning entries carrying key `k` are
exactly one when `k` has ≥ 2 mapped columns, holding the first two of
them, and none otherwise; second conjunct: the rendered warning strings
are exactly those entries rendered with parameter, asset and the two
column indices.) -/
theorem c7_duplicate_warnings (ms : List MappingResult) (k : DupKey) :
    (duplicateWarningData ms).filter (fun e => e.1 = k) =
      (match mappedCols ms k with
        | c0 :: c1 :: _ => [(k, (c0, c1))]
        | _ => []) ∧
    duplicateWarnings ms =
      (duplicateWarningData ms).map (fun e => renderDupWarning e.1 e.2.1 e.2.2) := by
  constructor
  · have hcols : keyCols (collectDuplicates ms) k = mappedCols ms k := by
      unfold collectDuplicates mappedCols
      rw [collect_step_keyCols]
      rfl
    have hnd : (keysOf (collectDuplicates ms)).Nodup := by
      unfold collectDuplicates
      exact collect_step_nodup _ _ (by simp [keysOf])
    unfold duplicateWarningData
    rw [filter_filterMap_comm _ dupEntry_key k,
      filter_eq_findKey_of_nodup k _ hnd, ← hcols]
    rcases hfk : findKey (collectDuplicates ms) k with _ | cs
    · simp only [keyCols, hfk, Option.getD_none]
      rfl
    · simp only [keyCols, hfk, Option.getD_some]
      match cs with
      | [] => rfl
      | [c] => rfl
      | c0 :: c1 :: tl => rfl
  · unfold duplicateWarnings duplicateWarningData
    rw [List.map_filterMap]
    congr 1
    funext e
    exact (map_render_eq e).symm
